import Mathlib

/-!
Verification of the kakbet-sr-widget proxy repository.

This file gives a shallow embedding of the two proxy implementations found in
the repository:

* `src/server.js` — the minimal dependency-free server: the dual-mode proxy
  request pipeline (`proxyRequest`, with its stream branch and its transform
  branch that decompresses, rewrites feed-host URLs and re-serves the body),
  and the route dispatch chain of `http.createServer`.

* the configuration-driven `ProxyService` (widget/asset proxying with a
  node-cache backed memoization layer) together with the express router that
  wraps it.

External effects (the upstream HTTP client, zlib decompression) are modelled
as oracle parameters; machine-level byte buffers are modelled as Lean
`String`s / `List Char`, with UTF-8 byte lengths computed by
`String.utf8ByteSize` where the code uses `Buffer.byteLength` semantics.
-/

namespace SrWidget

/-! ### JS `String.replace(/literal/g, replacement)`

`server.js` applies four global literal regex replacements to the widget
loader body.  JS global replace scans left to right and replaces
non-overlapping occurrences, continuing after the end of each match.  We embed
that as a fuel-indexed structural recursion (fuel `= s.length` in the wrapper)
so that every application reduces in the kernel. -/

/-- One global literal replacement pass, fuel-indexed.  The pattern is split
as `p0 :: ps` so it is syntactically nonempty (all patterns in the source are
nonempty literals). -/
def replFuel (p0 : Char) (ps rep : List Char) : Nat → List Char → List Char
  | 0, s => s
  | _ + 1, [] => []
  | n + 1, c :: s =>
    if (p0 :: ps).isPrefixOf (c :: s) then
      rep ++ replFuel p0 ps rep n (s.drop ps.length)
    else
      c :: replFuel p0 ps rep n s

/-- JS `text.replace(/pat/g, rep)` for a nonempty literal pattern
`p0 :: ps`. -/
def replaceAll (p0 : Char) (ps rep s : List Char) : List Char :=
  replFuel p0 ps rep s.length s

/-- The four rewrite patterns of `server.js` `proxyRequest` (transform mode),
in source order, as character lists. -/
def patLmtField : List Char := "\"lmtFishnetFeedsUrl\":\"https://lt-fn.sir-sportradar.com\"".data

def repLmtField : List Char := "\"lmtFishnetFeedsUrl\":\"http://localhost:3001/api/lt-fn\"".data

def patCardsField : List Char := "\"cardsFishnetFeedsUrl\":\"https://ws-fn.sir-sportradar.com\"".data

def repCardsField : List Char := "\"cardsFishnetFeedsUrl\":\"http://localhost:3001/api/ws-fn\"".data

def patLtBare : List Char := "https://lt-fn.sir-sportradar.com".data

def repLtBare : List Char := "http://localhost:3001/api/lt-fn".data

def patWsBare : List Char := "https://ws-fn.sir-sportradar.com".data

def repWsBare : List Char := "http://localhost:3001/api/ws-fn".data

/-- Apply one of the source's replacement rules, given as pattern/replacement
lists; the pattern must be nonempty (all four are). -/
def applyRule (pat rep s : List Char) : List Char :=
  match pat with
  | [] => s
  | p0 :: ps => replaceAll p0 ps rep s

/-- The ordered rewrite of the widget-loader body from `server.js`
(transform mode): the two JSON-field rules run first, then the two bare
feed-host rules, exactly in source order. -/
def rewriteL (s : List Char) : List Char :=
  applyRule patWsBare repWsBare
    (applyRule patLtBare repLtBare
      (applyRule patCardsField repCardsField
        (applyRule patLmtField repLmtField s)))

/-- String-level rewrite, as applied to `finalData.toString()` in
`server.js`. -/
def rewriteWidgetScript (s : String) : String :=
  String.mk (rewriteL s.data)

/-! ### Idempotence of the rewrite pass

The strategy: a single `replaceAll pat rep` pass leaves no occurrence of
`pat` in its output whenever (a) `pat` does not occur in `rep`, (b) no
nonempty suffix of `rep` is a proper prefix of `pat`, and (c) every nonempty
proper suffix of `pat` is prefix-incomparable with `rep`; and a later pass
with a different pattern cannot reintroduce occurrences under the same kind
of side conditions.  All side conditions are decidable facts about the four
concrete pattern/replacement pairs.  Since the two JSON-field patterns
contain the corresponding bare feed-host patterns as substrings, absence of
the bare patterns in the final output implies absence of all four, and a
second full rewrite is the identity. -/

/-- A decomposition of prefixes of an append. -/
theorem prefix_append_cases {α} {b r x : List α} (h : b <+: r ++ x) :
    b <+: r ∨ ∃ b', b = r ++ b' ∧ b' <+: x := by
  induction r generalizing b with
  | nil => exact Or.inr ⟨b, rfl, h⟩
  | cons a r' ih =>
    cases b with
    | nil => exact Or.inl ( List.nil_prefix)
    | cons y b'' =>
      rw [List.cons_append, List.cons_prefix_cons] at h
      obtain ⟨rfl, h⟩ := h
      rcases ih h with h' | ⟨b', rfl, hb'⟩
      · exact Or.inl (List.cons_prefix_cons.mpr ⟨rfl, h'⟩)
      · exact Or.inr ⟨b', rfl, hb'⟩

/-- A decomposition of suffixes of an append. -/
theorem suffix_append_cases {α} {t r x : List α} (h : t <:+ r ++ x) :
    t <:+ x ∨ ∃ k, k < r.length ∧ t = r.drop k ++ x := by
  induction r generalizing t with
  | nil => exact Or.inl h
  | cons a r' ih =>
    rw [List.cons_append, List.suffix_cons_iff] at h
    rcases h with rfl | h
    · exact Or.inr ⟨0, by simp, by simp⟩
    · rcases ih h with h' | ⟨k, hk, rfl⟩
      · exact Or.inl h'
      · exact Or.inr ⟨k + 1, by simpa using hk, by simp⟩

/-- If the pattern does not occur in the input, a replacement pass is the
identity. -/
theorem replFuel_id_of_no_occ (p0 : Char) (ps rep : List Char) :
    ∀ n s, ¬ ((p0 :: ps) <:+: s) → replFuel p0 ps rep n s = s := by
  intro n
  induction n with
  | zero => intro s _; rfl
  | succ n ih =>
    intro s hs
    cases s with
    | nil => rfl
    | cons c s =>
      simp only [replFuel]
      rw [if_neg, ih s (fun h => hs (List.infix_cons h))]
      intro hpre
      exact hs (List.infix_iff_prefix_suffix.mpr
        ⟨c :: s, List.isPrefixOf_iff_prefix.mp hpre, List.suffix_rfl⟩)

/-- Suffix-transfer: if a nonempty proper suffix `b` of a tracked pattern `p`
is prefix-incomparable with the replacement `r`, then `b` being a prefix of a
replacement pass's output forces `b` to already be a prefix of the input. -/
theorem suffix_prefix_transfer
    (p : List Char) (q0 : Char) (qs r : List Char)
    (hinc : ∀ k, k < p.length → 0 < k →
      ¬ (p.drop k <+: r) ∧ ¬ (r <+: p.drop k)) :
    ∀ n s b, b ≠ [] → b ≠ p → b <:+ p →
      b <+: replFuel q0 qs r n s → b <+: s := by
  intro n
  induction n with
  | zero =>
    intro s b _ _ _ hpre
    exact hpre
  | succ n ih =>
    intro s b hbne hbnp hbsuf hpre
    cases s with
    | nil =>
      simp only [replFuel] at hpre
      simp at hpre
      exact absurd hpre hbne
    | cons c s =>
      simp only [replFuel] at hpre
      by_cases hm : (q0 :: qs).isPrefixOf (c :: s)
      case pos =>
        rw [if_pos hm] at hpre
        obtain ⟨u, hu⟩ := hbsuf
        have hk1 : u.length < p.length := by
          have hlu := congrArg List.length hu
          simp at hlu
          have hb0 : 0 < b.length := List.length_pos.mpr hbne
          omega
        have hk2 : 0 < u.length := by
          rcases Nat.eq_zero_or_pos u.length with h0 | h0
          · exfalso
            have hu0 : u = [] := List.eq_nil_of_length_eq_zero h0
            subst hu0
            simp at hu
            exact hbnp hu
          · exact h0
        have hdrop : p.drop u.length = b := by
          rw [← hu, List.drop_left]
        rcases prefix_append_cases hpre with hcase | ⟨b', hb', _⟩
        · rw [← hdrop] at hcase
          exact absurd hcase (hinc u.length hk1 hk2).1
        · have hrb : r <+: b := ⟨b', hb'.symm⟩
          rw [← hdrop] at hrb
          exact absurd hrb (hinc u.length hk1 hk2).2
      case neg =>
        rw [if_neg hm] at hpre
        cases b with
        | nil => exact absurd rfl hbne
        | cons y b' =>
          rw [List.cons_prefix_cons] at hpre
          obtain ⟨rfl, hb'⟩ := hpre
          cases b' with
          | nil => exact List.cons_prefix_cons.mpr ⟨rfl, List.nil_prefix⟩
          | cons z b'' =>
            have hsuf' : (z :: b'') <:+ p :=
              (List.tail_suffix (y :: z :: b'')).trans hbsuf
            have hne' : (z :: b'') ≠ p := by
              intro hzp
              have h1 : (y :: z :: b'').length ≤ p.length := hbsuf.length_le
              have h2 := congrArg List.length hzp
              simp at h1 h2
              omega
            have hstep := ih s (z :: b'') (by simp) hne' hsuf' hb'
            exact List.cons_prefix_cons.mpr ⟨rfl, hstep⟩

/-- A pattern cannot occur in `r ++ x` when it does not occur in `r`, does
not occur in `x`, and no nonempty suffix of `r` is a proper prefix of the
pattern. -/
theorem no_occ_append (p r x : List Char)
    (hA : ¬ (p <:+: r))
    (hB : ∀ k, k < r.length →
      ¬ ((r.drop k) <+: p ∧ (r.drop k).length < p.length))
    (hx : ¬ (p <:+: x)) :
    ¬ (p <:+: r ++ x) := by
  intro h
  obtain ⟨t, hpt, hts⟩ := List.infix_iff_prefix_suffix.mp h
  rcases suffix_append_cases hts with h' | ⟨k, hk, rfl⟩
  · exact hx (List.infix_iff_prefix_suffix.mpr ⟨t, hpt, h'⟩)
  · rcases List.prefix_or_prefix_of_prefix hpt ( List.prefix_append (r.drop k) x)
      with hcase | hcase
    · exact hA (List.infix_iff_prefix_suffix.mpr ⟨r.drop k, hcase, List.drop_suffix k r⟩)
    · by_cases hlt : (r.drop k).length < p.length
      · exact hB k hk ⟨hcase, hlt⟩
      · have hlen : (r.drop k).length = p.length :=
          Nat.le_antisymm hcase.length_le (Nat.le_of_not_lt hlt)
        have heq : r.drop k = p := hcase.eq_of_length hlen
        exact hA (List.infix_iff_prefix_suffix.mpr
          ⟨r.drop k, heq ▸ List.prefix_rfl, List.drop_suffix k r⟩)

/-- After a full replacement pass, no occurrence of the pattern itself
remains, under the decidable side conditions relating pattern and
replacement. -/
theorem no_self_occurrence
    (q0 : Char) (qs r : List Char)
    (hA : ¬ ((q0 :: qs) <:+: r))
    (hB : ∀ k, k < r.length →
      ¬ ((r.drop k) <+: (q0 :: qs) ∧ (r.drop k).length < (q0 :: qs).length))
    (hinc : ∀ k, k < (q0 :: qs).length → 0 < k →
      ¬ ((q0 :: qs).drop k <+: r) ∧ ¬ (r <+: (q0 :: qs).drop k)) :
    ∀ n s, s.length ≤ n → ¬ ((q0 :: qs) <:+: replFuel q0 qs r n s) := by
  intro n
  induction n with
  | zero =>
    intro s hlen h
    have hs0 : s = [] := List.eq_nil_of_length_eq_zero (Nat.le_zero.mp hlen)
    subst hs0
    exact List.cons_ne_nil _ _ (List.eq_nil_of_infix_nil h)
  | succ n ih =>
    intro s hlen
    cases s with
    | nil =>
      intro h
      simp only [replFuel] at h
      exact List.cons_ne_nil _ _ (List.eq_nil_of_infix_nil h)
    | cons c s =>
      simp only [replFuel]
      have hslen : s.length ≤ n := by simp at hlen; omega
      by_cases hm : (q0 :: qs).isPrefixOf (c :: s)
      case pos =>
        rw [if_pos hm]
        exact no_occ_append _ _ _ hA hB
          (ih (s.drop qs.length) (le_trans (by simp) hslen))
      case neg =>
        rw [if_neg hm]
        intro h
        rcases List.infix_cons_iff.mp h with hpre | hinf
        · rw [List.cons_prefix_cons] at hpre
          obtain ⟨rfl, hqs⟩ := hpre
          cases qs with
          | nil =>
            exact hm ( List.isPrefixOf_iff_prefix.mpr
              (List.cons_prefix_cons.mpr ⟨rfl, List.nil_prefix⟩))
          | cons z qs' =>
            have hne : (z :: qs') ≠ (q0 :: z :: qs') := by
              intro hzp
              have h2 := congrArg List.length hzp
              simp at h2
            have hqss := suffix_prefix_transfer (q0 :: z :: qs') q0 (z :: qs') r hinc
              n s (z :: qs') (by simp) hne
              (List.tail_suffix (q0 :: z :: qs')) hqs
            exact hm ( List.isPrefixOf_iff_prefix.mpr
              (List.cons_prefix_cons.mpr ⟨rfl, hqss⟩))
        · exact ih s hslen hinf

/-- A replacement pass for pattern `q` cannot introduce an occurrence of a
different tracked pattern `p`, under the analogous side conditions between
`p` and the replacement text `r`. -/
theorem no_occurrence_preserved
    (p0 : Char) (pt : List Char) (q0 : Char) (qs r : List Char)
    (hA : ¬ ((p0 :: pt) <:+: r))
    (hB : ∀ k, k < r.length →
      ¬ ((r.drop k) <+: (p0 :: pt) ∧ (r.drop k).length < (p0 :: pt).length))
    (hinc : ∀ k, k < (p0 :: pt).length → 0 < k →
      ¬ ((p0 :: pt).drop k <+: r) ∧ ¬ (r <+: (p0 :: pt).drop k)) :
    ∀ n s, ¬ ((p0 :: pt) <:+: s) → ¬ ((p0 :: pt) <:+: replFuel q0 qs r n s) := by
  intro n
  induction n with
  | zero =>
    intro s hns h
    exact hns h
  | succ n ih =>
    intro s hns
    cases s with
    | nil =>
      intro h
      simp only [replFuel] at h
      exact List.cons_ne_nil _ _ (List.eq_nil_of_infix_nil h)
    | cons c s =>
      simp only [replFuel]
      have hnss : ¬ ((p0 :: pt) <:+: s) := fun h => hns (List.infix_cons h)
      by_cases hm : (q0 :: qs).isPrefixOf (c :: s)
      case pos =>
        rw [if_pos hm]
        refine no_occ_append _ _ _ hA hB (ih (s.drop qs.length) ?_)
        intro h
        exact hnss (h.trans (List.drop_suffix qs.length s).isInfix)
      case neg =>
        rw [if_neg hm]
        intro h
        rcases List.infix_cons_iff.mp h with hpre | hinf
        · rw [List.cons_prefix_cons] at hpre
          obtain ⟨rfl, hpt⟩ := hpre
          cases pt with
          | nil =>
            exact hns (List.infix_iff_prefix_suffix.mpr
              ⟨p0 :: s, List.cons_prefix_cons.mpr ⟨rfl, List.nil_prefix⟩,
                List.suffix_rfl⟩)
          | cons z pt' =>
            have hne : (z :: pt') ≠ (p0 :: z :: pt') := by
              intro hzp
              have h2 := congrArg List.length hzp
              simp at h2
            have hpts := suffix_prefix_transfer (p0 :: z :: pt') q0 qs r hinc
              n s (z :: pt') (by simp) hne
              (List.tail_suffix (p0 :: z :: pt')) hpt
            exact hns (List.infix_iff_prefix_suffix.mpr
              ⟨p0 :: s, List.cons_prefix_cons.mpr ⟨rfl, hpts⟩, List.suffix_rfl⟩)
        · exact ih s hnss hinf

/-- If the pattern does not occur in the input, `applyRule` is the
identity. -/
theorem applyRule_id (pat rep s : List Char) (h : ¬ (pat <:+: s)) :
    applyRule pat rep s = s := by
  cases pat with
  | nil => rfl
  | cons p0 ps => exact replFuel_id_of_no_occ p0 ps rep s.length s h

/-- Rule application leaves no occurrence of its own pattern, under the decidable
side conditions. -/
theorem applyRule_no_self (pat rep : List Char)
    (hne : pat ≠ [])
    (hA : ¬ (pat <:+: rep))
    (hB : ∀ k, k < rep.length →
      ¬ ((rep.drop k) <+: pat ∧ (rep.drop k).length < pat.length))
    (hinc : ∀ k, k < pat.length → 0 < k →
      ¬ (pat.drop k <+: rep) ∧ ¬ (rep <+: pat.drop k))
    (s : List Char) :
    ¬ (pat <:+: applyRule pat rep s) := by
  cases pat with
  | nil => exact absurd rfl hne
  | cons p0 ps =>
    exact no_self_occurrence p0 ps rep hA hB hinc s.length s (Nat.le_refl _)

/-- Rule application for one pattern cannot reintroduce an occurrence of a
different tracked pattern, under the decidable side conditions. -/
theorem applyRule_preserves (p pat rep : List Char)
    (hpne : p ≠ [])
    (hA : ¬ (p <:+: rep))
    (hB : ∀ k, k < rep.length →
      ¬ ((rep.drop k) <+: p ∧ (rep.drop k).length < p.length))
    (hinc : ∀ k, k < p.length → 0 < k →
      ¬ (p.drop k <+: rep) ∧ ¬ (rep <+: p.drop k))
    (s : List Char) (hs : ¬ (p <:+: s)) :
    ¬ (p <:+: applyRule pat rep s) := by
  cases p with
  | nil => exact absurd rfl hpne
  | cons p0 pt =>
    cases pat with
    | nil => exact hs
    | cons q0 qs =>
      exact no_occurrence_preserved p0 pt q0 qs rep hA hB hinc s.length s hs

/-- The bare lt-fn feed-host pattern never occurs in a fully rewritten
body. -/
theorem rewriteL_no_ltBare (s : List Char) : ¬ (patLtBare <:+: rewriteL s) := by
  unfold rewriteL
  apply applyRule_preserves
  · decide
  · decide
  · decide
  · decide
  · apply applyRule_no_self
    · decide
    · decide
    · decide
    · decide

/-- The bare ws-fn feed-host pattern never occurs in a fully rewritten
body. -/
theorem rewriteL_no_wsBare (s : List Char) : ¬ (patWsBare <:+: rewriteL s) := by
  unfold rewriteL
  apply applyRule_no_self
  · decide
  · decide
  · decide
  · decide

/-- The lmt JSON-field pattern never occurs in a fully rewritten body
(it contains the bare lt-fn pattern as a substring). -/
theorem rewriteL_no_lmtField (s : List Char) : ¬ (patLmtField <:+: rewriteL s) :=
  fun h => rewriteL_no_ltBare s ((by decide : patLtBare <:+: patLmtField).trans h)

/-- The cards JSON-field pattern never occurs in a fully rewritten body
(it contains the bare ws-fn pattern as a substring). -/
theorem rewriteL_no_cardsField (s : List Char) : ¬ (patCardsField <:+: rewriteL s) :=
  fun h => rewriteL_no_wsBare s ((by decide : patWsBare <:+: patCardsField).trans h)

/-- List-level idempotence of the full ordered rewrite. -/
theorem rewriteL_idem (s : List Char) : rewriteL (rewriteL s) = rewriteL s := by
  conv_lhs => rw [rewriteL]
  rw [applyRule_id _ _ _ (rewriteL_no_lmtField s),
    applyRule_id _ _ _ (rewriteL_no_cardsField s),
    applyRule_id _ _ _ (rewriteL_no_ltBare s),
    applyRule_id _ _ _ (rewriteL_no_wsBare s)]

/-! ### Node response header model

`res.setHeader` in Node treats header names case-insensitively and stores
one value per (lowercased) name, the latest `setHeader` winning.  We model
the outbound header state as an association list keyed by the lowercased
name. -/

/-- Lowercase a string character-wise (ASCII header names only appear
here). -/
def lowerStr (s : String) : String :=
  String.mk (s.data.map Char.toLower)

/-- Model of `res.setHeader(k, v)`: replace the entry with the same case-insensitive
name, else append. -/
def hset (hs : List (String × String)) (k v : String) : List (String × String) :=
  if hs.any (fun e => e.fst == lowerStr k) then
    hs.map (fun e => if e.fst == lowerStr k then (lowerStr k, v) else e)
  else
    hs ++ [(lowerStr k, v)]

/-- Model of `res.getHeader(k)`: what goes out on the wire for name `k`. -/
def hget (hs : List (String × String)) (k : String) : Option String :=
  (hs.find? (fun e => e.fst == lowerStr k)).map (fun e => e.snd)

/-- Set a whole list of headers in order (e.g. the CORS block, or the
upstream header object iteration). -/
def hsetAll (hs : List (String × String)) (kvs : List (String × String)) :
    List (String × String) :=
  kvs.foldl (fun a kv => hset a kv.fst kv.snd) hs

theorem find?_map_replace (t : List (String × String)) (lk lk' v : String)
    (hk : lk' ≠ lk) :
    (t.map (fun e => if e.fst == lk then (lk, v) else e)).find?
        (fun e => e.fst == lk') =
      t.find? (fun e => e.fst == lk') := by
  induction t with
  | nil => rfl
  | cons e t ih =>
    by_cases he : e.fst == lk
    · have hefst : e.fst = lk := by simpa using he
      have h1 : (lk == lk') = false := by
        simpa using fun h : lk = lk' => hk h.symm
      have h2 : (e.fst == lk') = false := by rw [hefst]; exact h1
      simp only [List.map_cons, if_pos he, List.find?_cons, h1, h2]
      exact ih
    · by_cases he' : e.fst == lk'
      · simp only [List.map_cons, if_neg he, List.find?_cons, he']
      · have h2 : (e.fst == lk') = false := by simpa using he'
        simp only [List.map_cons, if_neg he, List.find?_cons, h2]
        exact ih

theorem find?_map_replace_hit (t : List (String × String)) (lk v : String)
    (hmem : t.any (fun e => e.fst == lk)) :
    (t.map (fun e => if e.fst == lk then (lk, v) else e)).find?
        (fun e => e.fst == lk) = some (lk, v) := by
  induction t with
  | nil => simp at hmem
  | cons e t ih =>
    by_cases he : e.fst == lk
    · simp only [List.map_cons, if_pos he, List.find?_cons, beq_self_eq_true]
    · simp only [List.any_cons, he, Bool.false_or] at hmem
      have h2 : (e.fst == lk) = false := by simpa using he
      simp only [List.map_cons, if_neg he]
      simp only [List.find?_cons, h2]
      exact ih hmem

theorem hget_hset_same (hs : List (String × String)) (k v k' : String)
    (hk : lowerStr k' = lowerStr k) : hget (hset hs k v) k' = some v := by
  unfold hget hset
  rw [hk]
  by_cases hmem : hs.any (fun e => e.fst == lowerStr k)
  · rw [if_pos hmem, find?_map_replace_hit hs (lowerStr k) v hmem]
    rfl
  · rw [if_neg hmem, List.find?_append]
    have hnone : hs.find? (fun e => e.fst == lowerStr k) = none := by
      rw [List.find?_eq_none]
      intro x hx
      simp only [List.any_eq_true] at hmem
      push_neg at hmem
      simpa using hmem x hx
    rw [hnone]
    simp [List.find?]

theorem hget_hset_other (hs : List (String × String)) (k v k' : String)
    (hk : lowerStr k' ≠ lowerStr k) : hget (hset hs k v) k' = hget hs k' := by
  unfold hget hset
  by_cases hmem : hs.any (fun e => e.fst == lowerStr k)
  · rw [if_pos hmem, find?_map_replace hs (lowerStr k) (lowerStr k') v hk]
  · rw [if_neg hmem, List.find?_append]
    have hne : (lowerStr k == lowerStr k') = false := by
      simpa using fun h : lowerStr k = lowerStr k' => hk h.symm
    have happ : List.find? (fun e => e.fst == lowerStr k') [(lowerStr k, v)] = none := by
      simp [List.find?, hne]
    rw [happ]
    cases hs.find? (fun e => e.fst == lowerStr k') <;> rfl

/-! ### `server.js` dual-mode proxy response pipeline

The upstream response is modelled with the header object Node builds for an
`IncomingMessage` (lowercased, deduplicated names) and the body as a string
of bytes.  zlib decompression is an oracle (`Option`-valued: `none` models a
thrown decompression error). -/

/-- Upstream response as seen by `proxyRequest`'s callback. -/
structure UpstreamResp where
  status : Nat
  headers : List (String × String)
  body : String

/-- Decompression oracle standing for `zlib.gunzipSync`,
`zlib.brotliDecompressSync` and `zlib.inflateSync`; `none` models a thrown
error. -/
structure DecompOracle where
  gunzip : String → Option String
  brotli : String → Option String
  inflate : String → Option String

/-- Outbound response written by the minimal server. -/
structure NodeResponse where
  status : Nat
  headers : List (String × String)
  body : String

/-- The fixed security/CORS header block of `server.js`. -/
def corsHeaderList : List (String × String) :=
  [("Access-Control-Allow-Origin", "*"),
   ("Access-Control-Allow-Methods", "GET, POST, OPTIONS"),
   ("Access-Control-Allow-Headers", "Content-Type, Authorization, X-Requested-With"),
   ("X-Frame-Options", "SAMEORIGIN"),
   ("X-Content-Type-Options", "nosniff"),
   ("X-XSS-Protection", "1; mode=block"),
   ("Referrer-Policy", "strict-origin-when-cross-origin")]

/-- The decompression step of the transform branch: decompress according to
the upstream `content-encoding`, falling back to the raw bytes when the
oracle fails (the `catch` block of `proxyRequest`). -/
def decompressBody (o : DecompOracle) (enc : Option String) (data : String) :
    String :=
  match enc with
  | some "gzip" => (o.gunzip data).getD data
  | some "br" => (o.brotli data).getD data
  | some "deflate" => (o.inflate data).getD data
  | _ => data

/-- The stream branch of `proxyRequest` (`rewriteWidgetScript` option off):
CORS headers first, then every upstream header copied over them, status
forwarded, body piped unmodified. -/
def streamRespond (up : UpstreamResp) : NodeResponse :=
  { status := up.status,
    headers := hsetAll (hsetAll [] corsHeaderList) up.headers,
    body := up.body }

/-- The transform branch of `proxyRequest` (`rewriteWidgetScript` option
on): buffer, decompress (with raw-bytes fallback), rewrite the feed-host
URLs, then emit content-type (with JS default), optional cache-control, and
a content-length computed from the UTF-8 byte length of the rewritten body;
content-encoding is never set. -/
def transformRespond (o : DecompOracle) (up : UpstreamResp) : NodeResponse :=
  let enc := hget up.headers "content-encoding"
  let finalData := decompressBody o enc up.body
  let text := rewriteWidgetScript finalData
  let h0 := hsetAll [] corsHeaderList
  let h1 := hset h0 "Content-Type"
    ((hget up.headers "content-type").getD "application/javascript")
  let h2 := match hget up.headers "cache-control" with
    | some cc => hset h1 "Cache-Control" cc
    | none => h1
  let h3 := hset h2 "Content-Length" (toString text.utf8ByteSize)
  { status := up.status, headers := h3, body := text }

/-- C2 — In transform mode the client response never carries a
content-encoding header, and its content-length header is exactly the UTF-8
byte length of the rewritten body that is sent. -/
theorem transform_content_headers (o : DecompOracle) (up : UpstreamResp) :
    hget (transformRespond o up).headers "content-encoding" = none ∧
    hget (transformRespond o up).headers "content-length" =
      some (toString (transformRespond o up).body.utf8ByteSize) := by
  unfold transformRespond
  simp only
  constructor
  · rw [hget_hset_other _ _ _ _ (by decide)]
    cases hcc : hget up.headers "cache-control" with
    | none =>
      rw [hget_hset_other _ _ _ _ (by decide)]
      decide
    | some cc =>
      rw [hget_hset_other _ _ _ _ (by decide),
        hget_hset_other _ _ _ _ (by decide)]
      decide
  · rw [hget_hset_same _ _ _ _ (by decide)]

/-- Folding `hset` over a list whose (lowercased) names all differ from the
queried name leaves that name's value unchanged. -/
theorem hget_foldl_of_ne (t : List (String × String)) :
    ∀ (acc : List (String × String)) (k : String),
      (∀ f ∈ t, lowerStr k ≠ lowerStr f.fst) →
      hget (t.foldl (fun a kv => hset a kv.fst kv.snd) acc) k = hget acc k := by
  induction t with
  | nil => intro acc k _; rfl
  | cons f t ih =>
    intro acc k hne
    simp only [List.foldl_cons]
    rw [ih _ k (fun g hg => hne g (List.mem_cons_of_mem f hg)),
      hget_hset_other _ _ _ _ (hne f (List.mem_cons_self f t))]

/-- Folding `hset` over a list with pairwise-distinct, already-lowercased
names makes every listed pair visible under its own name, whatever the
accumulator held before. -/
theorem hget_foldl_mem (t : List (String × String)) :
    ∀ (acc : List (String × String)) (k v : String),
      (t.map (fun e => e.fst)).Nodup →
      (∀ e ∈ t, lowerStr e.fst = e.fst) →
      (k, v) ∈ t →
      hget (t.foldl (fun a kv => hset a kv.fst kv.snd) acc) k = some v := by
  induction t with
  | nil => intro acc k v _ _ h; simp at h
  | cons e t ih =>
    intro acc k v hnd hlow hmem
    simp only [List.map_cons, List.nodup_cons] at hnd
    simp only [List.foldl_cons]
    rcases List.mem_cons.mp hmem with heq | hmem'
    · have hkk : k = e.fst := congrArg Prod.fst heq
      have hvv : v = e.snd := congrArg Prod.snd heq
      rw [hget_foldl_of_ne t _ k ?hne, hkk, hvv]
      · exact hget_hset_same acc e.fst e.snd e.fst rfl
      case hne =>
        intro f hf hlk
        have h1 : lowerStr f.fst = f.fst := hlow f (List.mem_cons_of_mem e hf)
        have h2 : lowerStr k = k := hkk ▸ hlow e (List.mem_cons_self e t)
        rw [h1, h2, hkk] at hlk
        exact hnd.1 (hlk ▸ List.mem_map_of_mem (fun e => e.fst) hf)
    · exact ih _ k v hnd.2 (fun f hf => hlow f (List.mem_cons_of_mem e hf)) hmem'

/-- C3 — In stream mode the body is forwarded byte-identically, the status
is forwarded unchanged, and every upstream header (its names lowercased by
Node's `IncomingMessage`, hence pairwise distinct) wins over the fixed
CORS/security set and reaches the client with its upstream value. -/
theorem stream_forwards_headers (up : UpstreamResp)
    (hnodup : (up.headers.map (fun e => e.fst)).Nodup)
    (hlower : ∀ e ∈ up.headers, lowerStr e.fst = e.fst) :
    (streamRespond up).body = up.body ∧
    (streamRespond up).status = up.status ∧
    ∀ k v, (k, v) ∈ up.headers → hget (streamRespond up).headers k = some v := by
  refine ⟨rfl, rfl, ?_⟩
  intro k v hmem
  exact hget_foldl_mem up.headers _ k v hnodup hlower hmem

/-- Witness for C3 at a concrete upstream response carrying content-length,
content-encoding, cache-control and a colliding security header. -/
theorem stream_forwards_headers_witness :
    (streamRespond ⟨200,
        [("content-length", "5"), ("content-encoding", "gzip"),
         ("cache-control", "no-cache"), ("x-frame-options", "DENY")],
        "hello"⟩).body = "hello" ∧
    (streamRespond ⟨200,
        [("content-length", "5"), ("content-encoding", "gzip"),
         ("cache-control", "no-cache"), ("x-frame-options", "DENY")],
        "hello"⟩).status = 200 ∧
    ∀ k v, (k, v) ∈
        [("content-length", "5"), ("content-encoding", "gzip"),
         ("cache-control", "no-cache"), ("x-frame-options", "DENY")] →
      hget (streamRespond ⟨200,
        [("content-length", "5"), ("content-encoding", "gzip"),
         ("cache-control", "no-cache"), ("x-frame-options", "DENY")],
        "hello"⟩).headers k = some v :=
  stream_forwards_headers _ (by decide) (by decide)

/-- C7 — When the body is labeled gzip/br/deflate but the decompressor
fails, the transform pipeline does not fail the request: it proceeds on the
raw bytes, the client sees the rewritten raw body with the upstream status
(no error response). -/
theorem decompress_failure_falls_back (o : DecompOracle) (up : UpstreamResp)
    (hfail :
      (hget up.headers "content-encoding" = some "gzip" ∧ o.gunzip up.body = none) ∨
      (hget up.headers "content-encoding" = some "br" ∧ o.brotli up.body = none) ∨
      (hget up.headers "content-encoding" = some "deflate" ∧ o.inflate up.body = none)) :
    (transformRespond o up).body = rewriteWidgetScript up.body ∧
    (transformRespond o up).status = up.status := by
  refine ⟨?_, rfl⟩
  unfold transformRespond
  simp only
  rcases hfail with ⟨henc, hdec⟩ | ⟨henc, hdec⟩ | ⟨henc, hdec⟩ <;>
    rw [henc] <;> unfold decompressBody <;> rw [hdec] <;> rfl

/-- C4 — The ordered rewrite rule set of the transform pipeline is
idempotent: applying it to an already-rewritten body returns the body
unchanged. -/
theorem rewrite_idempotent (s : String) :
    rewriteWidgetScript (rewriteWidgetScript s) = rewriteWidgetScript s := by
  unfold rewriteWidgetScript
  exact congrArg String.mk (rewriteL_idem s.data)

/-- The server environment visible to `proxyRequest`; the configured
listening port (`PORT`, default 3001) is in scope when the rewrite rules
run. -/
structure ServerEnv where
  port : Nat

/-- The transform-mode rewrite as it sits inside `server.js`: the module's
environment (in particular `PORT`) is in scope, but the replacement strings
are the fixed literals under `http://localhost:3001` — nothing is read from
the environment. -/
def rewriteWidgetScriptEnv (env : ServerEnv) (s : String) : String :=
  rewriteWidgetScript s

/-- C10 — The rewrite's replacement URLs do not depend on the configured
listening port (or anything else in the environment): every environment
yields the same rewritten text, the feed hosts map to the fixed
`http://localhost:3001` constants, and no feed-host occurrence survives. -/
theorem rewrite_constants_port_independent :
    (∀ (e₁ e₂ : ServerEnv) (s : String),
      rewriteWidgetScriptEnv e₁ s = rewriteWidgetScriptEnv e₂ s) ∧
    (∀ (e : ServerEnv) (s : String),
      rewriteWidgetScriptEnv e s = rewriteWidgetScript s) ∧
    rewriteWidgetScript "https://lt-fn.sir-sportradar.com" =
      "http://localhost:3001/api/lt-fn" ∧
    rewriteWidgetScript "https://ws-fn.sir-sportradar.com" =
      "http://localhost:3001/api/ws-fn" ∧
    (∀ s : String, ¬ (patLtBare <:+: (rewriteWidgetScript s).data) ∧
      ¬ (patWsBare <:+: (rewriteWidgetScript s).data)) := by
  refine ⟨fun _ _ _ => rfl, fun _ _ => rfl, by decide, by decide, fun s => ⟨?_, ?_⟩⟩
  · exact rewriteL_no_ltBare s.data
  · exact rewriteL_no_wsBare s.data

/-- Witness for C7 at a concrete input: a body labeled gzip whose
decompression fails is rewritten raw and served with the upstream status. -/
theorem decompress_failure_falls_back_witness :
    (transformRespond
        ⟨fun _ => none, fun _ => none, fun _ => none⟩
        ⟨200, [("content-encoding", "gzip")], "widget body"⟩).body =
      rewriteWidgetScript "widget body" ∧
    (transformRespond
        ⟨fun _ => none, fun _ => none, fun _ => none⟩
        ⟨200, [("content-encoding", "gzip")], "widget body"⟩).status = 200 :=
  decompress_failure_falls_back _ _ (Or.inl ⟨by decide, rfl⟩)

/-! ### The configuration-driven `ProxyService`

Model of `ProxyService.proxyWidget` / `proxyAsset` with the node-cache
backed memoization layer, and of the express routes wrapping them.  JS
object property access is case-sensitive here, so plain association lists
(`objGet`/`objSet`) model header objects built by spread literals; the
node-cache `get`/`set` pair is modelled with its lazy TTL expiry
(an entry whose `t` stamp is nonzero and `< now` is deleted on lookup) and
its `maxKeys` capacity check on `set`. -/

/-- Case-sensitive JS object property lookup over an association list. -/
def objGet {α : Type} (hs : List (String × α)) (k : String) : Option α :=
  (hs.find? (fun e => e.fst == k)).map (fun e => e.snd)

/-- Case-sensitive JS object property update (replace or append). -/
def objSet (hs : List (String × String)) (k v : String) :
    List (String × String) :=
  if hs.any (fun e => e.fst == k) then
    hs.map (fun e => if e.fst == k then (k, v) else e)
  else
    hs ++ [(k, v)]

/-- JS `a || b` over an optional numeric config field (`0` and `undefined`
are falsy). -/
def jsOrNat (a : Option Nat) (b : Nat) : Nat :=
  match a with
  | some n => if n = 0 then b else n
  | none => b

/-- One widget-type entry of `config.providers.*.widgetTypes`. -/
structure WidgetTypeCfg where
  path : String
deriving DecidableEq

/-- The `cache:` block of a provider entry. -/
structure ProvCacheCfg where
  scripts : Option Nat
  assets : Option Nat
  chunks : Option Nat
deriving DecidableEq

/-- One provider entry of the YAML/default configuration. -/
structure ProviderCfg where
  name : String
  baseUrl : String
  widgetId : String
  widgetTypes : List (String × WidgetTypeCfg)
  headers : List (String × String)
  cache : Option ProvCacheCfg
deriving DecidableEq

/-- The application configuration handed to `ProxyService`. -/
structure AppConfig where
  providers : List (String × ProviderCfg)
  cacheDefaultTtl : Nat
  cacheMaxKeys : Nat
deriving DecidableEq

/-- A cached `ProxyResult` (`status`, body, content type, response
headers). -/
structure ProxyResult where
  status : Nat
  data : String
  contentType : String
  headers : List (String × String)
deriving DecidableEq

/-- One node-cache entry: `expireAt = 0` means "never expires" (ttl 0),
otherwise it is the `now + ttl * 1000` stamp written at `set` time. -/
structure CacheEntry where
  key : String
  value : ProxyResult
  expireAt : Nat
deriving DecidableEq

/-- The mutable state threaded through the service: the cache contents plus
an instrumentation counter of upstream fetches performed. -/
structure ProxyState where
  cache : List CacheEntry
  fetchCount : Nat
deriving DecidableEq

/-- node-cache `get`, with lazy expiry: an expired entry is deleted and the
lookup misses. Returns the value (if fresh) and the updated store. -/
def cacheGet (entries : List CacheEntry) (now : Nat) (k : String) :
    Option ProxyResult × List CacheEntry :=
  match entries.find? (fun e => e.key == k) with
  | none => (none, entries)
  | some e =>
    if e.expireAt ≠ 0 ∧ e.expireAt < now then
      (none, entries.filter (fun x => x.key != k))
    else
      (some e.value, entries)

/-- The node-cache expiry stamp written at `set` time (`0` = never
expires). -/
def mkExpiry (now ttl : Nat) : Nat :=
  if ttl = 0 then 0 else now + ttl * 1000

/-- node-cache `set`: errors (`none`) with ECACHEFULL once `maxKeys` keys
are stored, else replaces or inserts the key with a fresh expiry stamp. -/
def cacheSet (entries : List CacheEntry) (maxKeys now : Nat) (k : String)
    (v : ProxyResult) (ttl : Nat) : Option (List CacheEntry) :=
  if maxKeys ≤ entries.length then
    none
  else
    let e : CacheEntry := { key := k, value := v, expireAt := mkExpiry now ttl }
    some (if entries.any (fun x => x.key == k) then
        entries.map (fun x => if x.key == k then e else x)
      else
        entries ++ [e])

/-- Outcome of one `axios` GET: a resolved response (status `< 500` by the
`validateStatus` policy) or a rejection carrying the error message. -/
inductive FetchOutcome
  | ok (status : Nat) (data : String) (headers : List (String × String))
  | err (msg : String)

/-- Upstream oracle: (target URL, request headers, query params, axios
responseType) to outcome. -/
def Fetcher : Type :=
  String → List (String × String) → List (String × String) → String →
    FetchOutcome

/-- A thrown JS `Error`: a message, and no `status` own-property unless one
was assigned (none is, in `ProxyService`). -/
structure JsError where
  message : String
  status : Option Nat
deriving DecidableEq

/-- Model of `JSON.stringify` of the express `req.query` object (flat string values,
insertion order preserved; modelled for values without JSON escapes, which
is all the cache key needs). -/
def joinComma : List String → String
  | [] => ""
  | [x] => x
  | x :: y :: xs => x ++ "," ++ joinComma (y :: xs)

def quoteKV (e : String × String) : String :=
  "\"" ++ e.fst ++ "\":\"" ++ e.snd ++ "\""

def jsonStringify (qp : List (String × String)) : String :=
  "\x7b" ++ joinComma (qp.map quoteKV) ++ "\x7d"

/-- The widget cache key of `ProxyService.proxyWidget`. -/
def widgetCacheKey (provider widgetType : String)
    (qp : List (String × String)) : String :=
  "widget:" ++ provider ++ ":" ++ widgetType ++ ":" ++ jsonStringify qp

/-- The asset cache key of `ProxyService.proxyAsset`. -/
def assetCacheKey (provider assetPath : String) : String :=
  "asset:" ++ provider ++ ":" ++ assetPath

/-- The subset of inbound request headers the router forwards
(`User-Agent`, `Referer`, `Accept-Encoding`). -/
structure ReqHeaders where
  userAgent : Option String
  referer : Option String
  acceptEncoding : Option String

/-- The request-header object built before the upstream fetch: provider
defaults spread first, then `User-Agent`/`Referer` overridden, then
`Accept-Encoding` if the client sent one. -/
def prepareHeaders (pc : ProviderCfg) (rh : ReqHeaders) :
    List (String × String) :=
  let h1 := objSet pc.headers "User-Agent"
    (rh.userAgent.getD ((objGet pc.headers "User-Agent").getD ""))
  let h2 := objSet h1 "Referer" (rh.referer.getD "https://kakbet.com")
  match rh.acceptEncoding with
  | some ae => objSet h2 "Accept-Encoding" ae
  | none => h2

/-- Model of `ProxyService.buildResponseHeaders`: fixed CORS/security set, then
content-type, content-encoding and cache-control preserved from upstream
when present, with a resource-type dependent cache-control default. -/
def buildResponseHeaders (orig : List (String × String))
    (resourceType : String) : List (String × String) :=
  let h0 : List (String × String) :=
    [("Access-Control-Allow-Origin", "*"),
     ("Access-Control-Allow-Methods", "GET, POST, OPTIONS"),
     ("Access-Control-Allow-Headers", "Content-Type, Authorization, X-Requested-With"),
     ("X-Frame-Options", "SAMEORIGIN"),
     ("X-Content-Type-Options", "nosniff")]
  let h1 := match objGet orig "content-type" with
    | some v => objSet h0 "Content-Type" v
    | none => h0
  let h2 := match objGet orig "content-encoding" with
    | some v => objSet h1 "Content-Encoding" v
    | none => h1
  match objGet orig "cache-control" with
  | some v => objSet h2 "Cache-Control" v
  | none =>
    objSet h2 "Cache-Control"
      (if resourceType == "script" then "public, max-age=300"
       else "public, max-age=3600")

/-- The `ProxyResult` built by `proxyWidget` from a resolved axios
response. -/
def mkWidgetResult (status : Nat) (data : String)
    (respHdrs : List (String × String)) : ProxyResult :=
  { status := status, data := data,
    contentType := (objGet respHdrs "content-type").getD
      "application/javascript",
    headers := buildResponseHeaders respHdrs "script" }

/-- The script TTL used by `proxyWidget`
(`providerConfig.cache?.scripts || config.cache.defaultTtl`). -/
def widgetTtl (cfg : AppConfig) (pc : ProviderCfg) : Nat :=
  jsOrNat (pc.cache.bind (fun c => c.scripts)) cfg.cacheDefaultTtl

/-- Model of `ProxyService.proxyWidget`: validate provider and widget type, build the
target URL, consult the cache, on miss fetch upstream (counting the fetch),
build and cache the result.  Thrown errors are the `Except.error` branch;
the resulting service state is returned alongside. -/
def proxyWidget (cfg : AppConfig) (fetch : Fetcher) (now : Nat)
    (st : ProxyState) (provider widgetType : String)
    (qp : List (String × String)) (rh : ReqHeaders) :
    Except JsError ProxyResult × ProxyState :=
  match objGet cfg.providers provider with
  | none => (.error ⟨"Provider '" ++ provider ++ "' not found", none⟩, st)
  | some pc =>
    match objGet pc.widgetTypes widgetType with
    | none =>
      (.error ⟨"Widget type '" ++ widgetType ++ "' not found for provider '"
        ++ provider ++ "'", none⟩, st)
    | some wcfg =>
      let targetUrl := pc.baseUrl ++ wcfg.path.replace "{widgetId}" pc.widgetId
      let key := widgetCacheKey provider widgetType qp
      match cacheGet st.cache now key with
      | (some cached, c1) => (.ok cached, { st with cache := c1 })
      | (none, c1) =>
        match fetch targetUrl (prepareHeaders pc rh) qp "text" with
        | .err m =>
          (.error ⟨"Failed to fetch widget: " ++ m, none⟩,
            { cache := c1, fetchCount := st.fetchCount + 1 })
        | .ok status data respHdrs =>
          let result := mkWidgetResult status data respHdrs
          let ttl := widgetTtl cfg pc
          match cacheSet c1 cfg.cacheMaxKeys now key result ttl with
          | none =>
            (.error ⟨"Failed to fetch widget: Cache is full", none⟩,
              { cache := c1, fetchCount := st.fetchCount + 1 })
          | some c2 =>
            (.ok result, { cache := c2, fetchCount := st.fetchCount + 1 })

/-- File extension of an asset path (`split('.').pop().toLowerCase()`). -/
def assetExt (assetPath : String) : String :=
  lowerStr ((assetPath.splitOn ".").getLastD "")

/-- Model of `ProxyService.getContentType`. -/
def getContentType (assetPath : String) : String :=
  let tbl : List (String × String) :=
    [("js", "application/javascript"), ("css", "text/css"),
     ("html", "text/html"), ("json", "application/json"),
     ("png", "image/png"), ("jpg", "image/jpeg"), ("jpeg", "image/jpeg"),
     ("gif", "image/gif"), ("webp", "image/webp"), ("ico", "image/x-icon"),
     ("svg", "image/svg+xml")]
  (objGet tbl (assetExt assetPath)).getD "application/octet-stream"

/-- Model of `ProxyService.getResponseType` (the axios responseType chosen per
extension). -/
def getResponseType (assetPath : String) : String :=
  let ext := assetExt assetPath
  if ext == "js" ∨ ext == "css" ∨ ext == "html" ∨ ext == "xml" ∨ ext == "json"
  then "text"
  else if ext == "png" ∨ ext == "jpg" ∨ ext == "jpeg" ∨ ext == "gif" ∨
      ext == "webp" ∨ ext == "ico"
  then "arraybuffer"
  else "text"

/-- Model of `ProxyService.getAssetCacheTtl`. -/
def getAssetCacheTtl (pc : ProviderCfg) (assetPath : String) : Nat :=
  let ext := assetExt assetPath
  if ext == "js" then
    if decide ("chunk.".data <:+: assetPath.data) then
      jsOrNat (pc.cache.bind (fun c => c.chunks)) 1800
    else
      jsOrNat (pc.cache.bind (fun c => c.assets)) 3600
  else if ext == "css" then
    jsOrNat (pc.cache.bind (fun c => c.assets)) 3600
  else
    jsOrNat (pc.cache.bind (fun c => c.assets)) 3600

/-- Model of `ProxyService.proxyAsset`: like `proxyWidget` but keyed on the asset
path, with extension-dependent response/content types and TTLs. -/
def proxyAsset (cfg : AppConfig) (fetch : Fetcher) (now : Nat)
    (st : ProxyState) (provider assetPath : String) (rh : ReqHeaders) :
    Except JsError ProxyResult × ProxyState :=
  match objGet cfg.providers provider with
  | none => (.error ⟨"Provider '" ++ provider ++ "' not found", none⟩, st)
  | some pc =>
    let targetUrl := pc.baseUrl ++ assetPath
    let key := assetCacheKey provider assetPath
    match cacheGet st.cache now key with
    | (some cached, c1) => (.ok cached, { st with cache := c1 })
    | (none, c1) =>
      match fetch targetUrl (prepareHeaders pc rh) [] (getResponseType assetPath) with
      | .err m =>
        (.error ⟨"Failed to fetch asset: " ++ m, none⟩,
          { cache := c1, fetchCount := st.fetchCount + 1 })
      | .ok status data respHdrs =>
        let result : ProxyResult :=
          { status := status, data := data,
            contentType := (objGet respHdrs "content-type").getD
              (getContentType assetPath),
            headers := buildResponseHeaders respHdrs "asset" }
        let ttl := getAssetCacheTtl pc assetPath
        match cacheSet c1 cfg.cacheMaxKeys now key result ttl with
        | none =>
          (.error ⟨"Failed to fetch asset: Cache is full", none⟩,
            { cache := c1, fetchCount := st.fetchCount + 1 })
        | some c2 =>
          (.ok result, { cache := c2, fetchCount := st.fetchCount + 1 })

/-! ### The express proxy router -/

/-- The JSON body shapes the proxy router can send. -/
inductive RouteBody
  | payload (data : String)
  | proxyError (error message provider widgetType : String)
  | providerNotFound (error message : String) (availableProviders : List String)
  | providerInfo (provider name baseUrl : String) (widgetTypes : List String)
deriving DecidableEq

/-- A response sent by an express handler. -/
structure HttpResponse where
  status : Nat
  headers : List (String × String)
  body : RouteBody
deriving DecidableEq

/-- The `GET /:provider/:widgetType` handler: forward to
`proxyWidget`; on success mirror the `ProxyResult`, on a thrown error
respond `error.status || 500` with the `Proxy Error` JSON echoing provider
and widget type. -/
def handleWidgetRoute (cfg : AppConfig) (fetch : Fetcher) (now : Nat)
    (st : ProxyState) (provider widgetType : String)
    (qp : List (String × String)) (rh : ReqHeaders) :
    HttpResponse × ProxyState :=
  match proxyWidget cfg fetch now st provider widgetType qp rh with
  | (.ok r, st') =>
    ({ status := r.status, headers := r.headers, body := .payload r.data }, st')
  | (.error e, st') =>
    ({ status := e.status.getD 500, headers := [],
       body := .proxyError "Proxy Error" e.message provider widgetType }, st')

/-- The `GET /:provider` info handler: 404 with the configured provider list
when the provider is unknown, else the provider summary. -/
def handleProviderInfoRoute (cfg : AppConfig) (provider : String) :
    HttpResponse :=
  match objGet cfg.providers provider with
  | none =>
    { status := 404, headers := [],
      body := .providerNotFound "Provider Not Found"
        ("Provider '" ++ provider ++ "' is not configured")
        (cfg.providers.map (fun e => e.fst)) }
  | some pc =>
    { status := 200, headers := [],
      body := .providerInfo provider pc.name pc.baseUrl
        (pc.widgetTypes.map (fun e => e.fst)) }

/-- The SportRadar provider entry of the fallback configuration
(`getDefaultConfig`), with the repository's widget id. -/
def sportradarCfg : ProviderCfg :=
  { name := "SportRadar",
    baseUrl := "https://widgets.sir-sportradar.com",
    widgetId := "984c87dccac74331a2261fd032f80dbf",
    widgetTypes :=
      [("match.lmtPlus", ⟨"/{widgetId}/widgetloader"⟩),
       ("match.preview", ⟨"/{widgetId}/widgetloader"⟩)],
    headers :=
      [("User-Agent", "KakBet-Widget-Proxy/1.0"),
       ("Accept", "*/*"),
       ("Accept-Encoding", "gzip, deflate, br")],
    cache := some ⟨some 300, some 3600, none⟩ }

/-- The fallback configuration of `loadConfig` (`getDefaultConfig`). -/
def defaultConfig : AppConfig :=
  { providers := [("sportradar", sportradarCfg)],
    cacheDefaultTtl := 300,
    cacheMaxKeys := 1000 }

/-- A trivially succeeding upstream oracle used by concrete witnesses. -/
def sampleFetch : Fetcher :=
  fun _ _ _ _ => .ok 200 "widget()" []

/-- C1 counterexample — a request for an unconfigured provider on the
cache-backed widget route performs no upstream fetch, but the response
status is 500 (not 404) and its body is the `Proxy Error` JSON, which does
not carry the configured provider list. -/
theorem unknown_provider_returns_500_cex :
    (handleWidgetRoute defaultConfig sampleFetch 0 ⟨[], 0⟩ "acme"
      "match.lmtPlus" [] ⟨none, none, none⟩).fst.status = 500 ∧
    (handleWidgetRoute defaultConfig sampleFetch 0 ⟨[], 0⟩ "acme"
      "match.lmtPlus" [] ⟨none, none, none⟩).fst.status ≠ 404 ∧
    (handleWidgetRoute defaultConfig sampleFetch 0 ⟨[], 0⟩ "acme"
      "match.lmtPlus" [] ⟨none, none, none⟩).snd.fetchCount = 0 ∧
    (handleWidgetRoute defaultConfig sampleFetch 0 ⟨[], 0⟩ "acme"
      "match.lmtPlus" [] ⟨none, none, none⟩).fst.body =
      RouteBody.proxyError "Proxy Error" "Provider 'acme' not found"
        "acme" "match.lmtPlus" := by
  refine ⟨by decide, by decide, by decide, by decide⟩

/-- C1 amended — an unknown provider or widget type on the cache-backed
widget route triggers no upstream fetch and yields a 500 `Proxy Error`
response echoing the offending identifiers; the 404 response carrying the
configured provider list exists only on the provider-info route. -/
theorem unknown_provider_widget_handling :
    (∀ cfg fetch now st p wt qp rh, objGet cfg.providers p = none →
      handleWidgetRoute cfg fetch now st p wt qp rh =
        ({ status := 500, headers := [],
           body := .proxyError "Proxy Error"
             ("Provider '" ++ p ++ "' not found") p wt }, st)) ∧
    (∀ cfg fetch now st p wt qp rh pc, objGet cfg.providers p = some pc →
      objGet pc.widgetTypes wt = none →
      handleWidgetRoute cfg fetch now st p wt qp rh =
        ({ status := 500, headers := [],
           body := .proxyError "Proxy Error"
             ("Widget type '" ++ wt ++ "' not found for provider '" ++ p ++ "'")
             p wt }, st)) ∧
    (∀ cfg p, objGet cfg.providers p = none →
      (handleProviderInfoRoute cfg p).status = 404 ∧
      (handleProviderInfoRoute cfg p).body =
        .providerNotFound "Provider Not Found"
          ("Provider '" ++ p ++ "' is not configured")
          (cfg.providers.map (fun e => e.fst))) := by
  refine ⟨?_, ?_, ?_⟩
  · intro cfg fetch now st p wt qp rh hp
    simp only [handleWidgetRoute, proxyWidget, hp]
    rfl
  · intro cfg fetch now st p wt qp rh pc hp hw
    simp only [handleWidgetRoute, proxyWidget, hp, hw]
    rfl
  · intro cfg p hp
    simp [handleProviderInfoRoute, hp]

/-- Witness for the amended C1 at a concrete unknown provider. -/
theorem unknown_provider_widget_handling_witness :
    handleWidgetRoute defaultConfig sampleFetch 0 ⟨[], 0⟩ "acme"
      "match.lmtPlus" [] ⟨none, none, none⟩ =
      ({ status := 500, headers := [],
         body := .proxyError "Proxy Error" "Provider 'acme' not found"
           "acme" "match.lmtPlus" }, ⟨[], 0⟩) :=
  unknown_provider_widget_handling.1 defaultConfig sampleFetch 0 ⟨[], 0⟩
    "acme" "match.lmtPlus" [] ⟨none, none, none⟩ (by decide)

/-- C8 — A cache entry is written only after a successful upstream fetch:
when the fetch rejects, both cache-backed operations surface a thrown error
and leave the cache contents exactly as they were (the key stays absent). -/
theorem fetch_failure_leaves_cache_unchanged :
    (∀ cfg fetch now st p wt qp rh pc wcfg m,
      objGet cfg.providers p = some pc →
      objGet pc.widgetTypes wt = some wcfg →
      st.cache.find? (fun e => e.key == widgetCacheKey p wt qp) = none →
      fetch (pc.baseUrl ++ wcfg.path.replace "{widgetId}" pc.widgetId)
        (prepareHeaders pc rh) qp "text" = .err m →
      proxyWidget cfg fetch now st p wt qp rh =
        (.error ⟨"Failed to fetch widget: " ++ m, none⟩,
          { cache := st.cache, fetchCount := st.fetchCount + 1 })) ∧
    (∀ cfg fetch now st p ap rh pc m,
      objGet cfg.providers p = some pc →
      st.cache.find? (fun e => e.key == assetCacheKey p ap) = none →
      fetch (pc.baseUrl ++ ap) (prepareHeaders pc rh) []
        (getResponseType ap) = .err m →
      proxyAsset cfg fetch now st p ap rh =
        (.error ⟨"Failed to fetch asset: " ++ m, none⟩,
          { cache := st.cache, fetchCount := st.fetchCount + 1 })) := by
  constructor
  · intro cfg fetch now st p wt qp rh pc wcfg m hp hw hfresh hfetch
    simp only [proxyWidget, hp, hw, cacheGet, hfresh, hfetch]
  · intro cfg fetch now st p ap rh pc m hp hfresh hfetch
    simp only [proxyAsset, hp, cacheGet, hfresh, hfetch]

theorem any_key_false_of_find?_none (l : List CacheEntry) (k : String)
    (h : l.find? (fun e => e.key == k) = none) :
    l.any (fun e => e.key == k) = false := by
  rw [List.any_eq_false]
  intro e he
  simpa using List.find?_eq_none.mp h e he

/-- Cache miss with a successful fetch: the result is built, cached under
the widget key with the script TTL, and the fetch counter increments. -/
theorem proxyWidget_miss_ok (cfg : AppConfig) (fetch : Fetcher) (now : Nat)
    (st : ProxyState) (p wt : String) (qp : List (String × String))
    (rh : ReqHeaders) (pc : ProviderCfg) (wcfg : WidgetTypeCfg)
    (status : Nat) (data : String) (respHdrs : List (String × String))
    (hp : objGet cfg.providers p = some pc)
    (hw : objGet pc.widgetTypes wt = some wcfg)
    (hfind : st.cache.find? (fun e => e.key == widgetCacheKey p wt qp) = none)
    (hfetch : fetch (pc.baseUrl ++ wcfg.path.replace "{widgetId}" pc.widgetId)
      (prepareHeaders pc rh) qp "text" = .ok status data respHdrs)
    (hlen : st.cache.length < cfg.cacheMaxKeys) :
    proxyWidget cfg fetch now st p wt qp rh =
      (.ok (mkWidgetResult status data respHdrs),
        ⟨st.cache ++ [⟨widgetCacheKey p wt qp,
            mkWidgetResult status data respHdrs,
            mkExpiry now (widgetTtl cfg pc)⟩],
          st.fetchCount + 1⟩) := by
  have hany := any_key_false_of_find?_none st.cache _ hfind
  simp only [proxyWidget, hp, hw, cacheGet, hfind, hfetch, cacheSet,
    if_neg (Nat.not_le.mpr hlen), hany, Bool.false_eq_true, if_false]

/-- Cache hit on a fresh entry: the cached value is returned, the state is
untouched, no fetch happens. -/
theorem proxyWidget_hit (cfg : AppConfig) (fetch : Fetcher) (now : Nat)
    (st : ProxyState) (p wt : String) (qp : List (String × String))
    (rh : ReqHeaders) (pc : ProviderCfg) (wcfg : WidgetTypeCfg)
    (e : CacheEntry)
    (hp : objGet cfg.providers p = some pc)
    (hw : objGet pc.widgetTypes wt = some wcfg)
    (hfind : st.cache.find? (fun x => x.key == widgetCacheKey p wt qp) = some e)
    (hfresh : ¬ (e.expireAt ≠ 0 ∧ e.expireAt < now)) :
    proxyWidget cfg fetch now st p wt qp rh = (.ok e.value, st) := by
  simp only [proxyWidget, hp, hw, cacheGet, hfind, if_neg hfresh]

/-- Lookup of an expired entry lazily deletes it; with a successful fetch
the key is re-fetched and re-cached with a new stamp. -/
theorem proxyWidget_expired_ok (cfg : AppConfig) (fetch : Fetcher) (now : Nat)
    (st : ProxyState) (p wt : String) (qp : List (String × String))
    (rh : ReqHeaders) (pc : ProviderCfg) (wcfg : WidgetTypeCfg)
    (e : CacheEntry) (status : Nat) (data : String)
    (respHdrs : List (String × String))
    (hp : objGet cfg.providers p = some pc)
    (hw : objGet pc.widgetTypes wt = some wcfg)
    (hfind : st.cache.find? (fun x => x.key == widgetCacheKey p wt qp) = some e)
    (hexp : e.expireAt ≠ 0 ∧ e.expireAt < now)
    (hfetch : fetch (pc.baseUrl ++ wcfg.path.replace "{widgetId}" pc.widgetId)
      (prepareHeaders pc rh) qp "text" = .ok status data respHdrs)
    (hlen : (st.cache.filter
        (fun x => x.key != widgetCacheKey p wt qp)).length < cfg.cacheMaxKeys) :
    proxyWidget cfg fetch now st p wt qp rh =
      (.ok (mkWidgetResult status data respHdrs),
        ⟨st.cache.filter (fun x => x.key != widgetCacheKey p wt qp) ++
            [⟨widgetCacheKey p wt qp,
              mkWidgetResult status data respHdrs,
              mkExpiry now (widgetTtl cfg pc)⟩],
          st.fetchCount + 1⟩) := by
  have hany : (st.cache.filter
      (fun x => x.key != widgetCacheKey p wt qp)).any
        (fun x => x.key == widgetCacheKey p wt qp) = false := by
    rw [List.any_eq_false]
    intro x hx
    have hmem := List.of_mem_filter hx
    simp only [bne_iff_ne, ne_eq] at hmem
    simpa using hmem
  simp only [proxyWidget, hp, hw, cacheGet, hfind, if_pos hexp, hfetch,
    cacheSet, if_neg (Nat.not_le.mpr hlen), hany, Bool.false_eq_true, if_false]

/-- C5 — starting from an empty cache, two identical cache-backed widget
requests inside the TTL window cost exactly one upstream fetch (the second
is served from cache and leaves the state untouched), and a third identical
request after the TTL has expired costs a second upstream fetch. -/
theorem cache_ttl_single_fetch (cfg : AppConfig) (fetch : Fetcher)
    (p wt : String) (qp : List (String × String)) (rh : ReqHeaders)
    (pc : ProviderCfg) (wcfg : WidgetTypeCfg)
    (n t1 t2 t3 status : Nat) (data : String)
    (respHdrs : List (String × String))
    (hp : objGet cfg.providers p = some pc)
    (hw : objGet pc.widgetTypes wt = some wcfg)
    (hfetch : fetch (pc.baseUrl ++ wcfg.path.replace "{widgetId}" pc.widgetId)
      (prepareHeaders pc rh) qp "text" = .ok status data respHdrs)
    (hmax : 1 ≤ cfg.cacheMaxKeys)
    (htpos : 0 < widgetTtl cfg pc)
    (h2 : t2 ≤ t1 + widgetTtl cfg pc * 1000)
    (h3 : t1 + widgetTtl cfg pc * 1000 < t3) :
    (proxyWidget cfg fetch t1 ⟨[], n⟩ p wt qp rh).snd.fetchCount = n + 1 ∧
    (proxyWidget cfg fetch t2
        (proxyWidget cfg fetch t1 ⟨[], n⟩ p wt qp rh).snd p wt qp rh).snd =
      (proxyWidget cfg fetch t1 ⟨[], n⟩ p wt qp rh).snd ∧
    (proxyWidget cfg fetch t3
        (proxyWidget cfg fetch t2
          (proxyWidget cfg fetch t1 ⟨[], n⟩ p wt qp rh).snd p wt qp rh).snd
        p wt qp rh).snd.fetchCount = n + 2 := by
  have hexpiry : mkExpiry t1 (widgetTtl cfg pc) = t1 + widgetTtl cfg pc * 1000 := by
    unfold mkExpiry
    rw [if_neg (by omega)]
  have e1 := proxyWidget_miss_ok cfg fetch t1 ⟨[], n⟩ p wt qp rh pc wcfg
    status data respHdrs hp hw rfl hfetch (by simpa using hmax)
  rw [List.nil_append] at e1
  have hfind1 :
      ([⟨widgetCacheKey p wt qp, mkWidgetResult status data respHdrs,
          mkExpiry t1 (widgetTtl cfg pc)⟩] : List CacheEntry).find?
        (fun x => x.key == widgetCacheKey p wt qp) =
      some ⟨widgetCacheKey p wt qp, mkWidgetResult status data respHdrs,
          mkExpiry t1 (widgetTtl cfg pc)⟩ := by
    simp [List.find?]
  have e2 := proxyWidget_hit cfg fetch t2
    ⟨[⟨widgetCacheKey p wt qp, mkWidgetResult status data respHdrs,
        mkExpiry t1 (widgetTtl cfg pc)⟩], n + 1⟩
    p wt qp rh pc wcfg _ hp hw hfind1
    (by simp only [hexpiry]; omega)
  have e3 := proxyWidget_expired_ok cfg fetch t3
    ⟨[⟨widgetCacheKey p wt qp, mkWidgetResult status data respHdrs,
        mkExpiry t1 (widgetTtl cfg pc)⟩], n + 1⟩
    p wt qp rh pc wcfg _ status data respHdrs hp hw hfind1
    (by simp only [hexpiry]; exact ⟨by omega, by omega⟩) hfetch
    (by simp [bne_self_eq_false]; omega)
  have s1 : (proxyWidget cfg fetch t1 ⟨[], n⟩ p wt qp rh).snd =
      ⟨[⟨widgetCacheKey p wt qp, mkWidgetResult status data respHdrs,
          mkExpiry t1 (widgetTtl cfg pc)⟩], n + 1⟩ := by
    rw [e1]
  have s2 : (proxyWidget cfg fetch t2
      (⟨[⟨widgetCacheKey p wt qp, mkWidgetResult status data respHdrs,
          mkExpiry t1 (widgetTtl cfg pc)⟩], n + 1⟩ : ProxyState)
      p wt qp rh).snd =
      ⟨[⟨widgetCacheKey p wt qp, mkWidgetResult status data respHdrs,
          mkExpiry t1 (widgetTtl cfg pc)⟩], n + 1⟩ := by
    rw [e2]
  refine ⟨?_, ?_, ?_⟩
  · rw [s1]
  · rw [s1, s2]
  · rw [s1, s2, e3]

/-! ### `server.js` route dispatch

The request-handler `if`-chain of `http.createServer`, as a pure route
selector.  The demo/loader branches fall through to later branches when
their file read throws, which the `FsState` flags model; all other branch
conditions are pure path tests. -/

/-- Whether the demo/loader static files are readable (a branch only
handles its path when its read succeeds; otherwise control falls
through). -/
structure FsState where
  demoOk : Bool
  themeCssOk : Bool
  previewOk : Bool
deriving DecidableEq

/-- The branches of the `server.js` request handler, in source order.
`sportradarAssets` is the branch whose body references the undefined
`SPORTRADAR_BASE` variable. -/
inductive Route
  | preflight
  | health
  | demo
  | loaderCss
  | loaderPreview
  | api
  | widgetProxy
  | licensing
  | translations
  | feedProxy
  | sportradarAssets
  | directAsset
  | notFound
deriving DecidableEq

/-- JS `String.prototype.startsWith`. -/
def jsStartsWith (s pre : String) : Bool :=
  pre.data.isPrefixOf s.data

/-- The dispatch chain of the `http.createServer` callback. -/
def dispatch (fs : FsState) (method pathname : String) : Route :=
  if method == "OPTIONS" then .preflight
  else if pathname == "/health" then .health
  else if (pathname == "/" ∨ pathname == "/demo") ∧ fs.demoOk then .demo
  else if pathname == "/loader/theme.css" ∧ fs.themeCssOk then .loaderCss
  else if (pathname == "/loader/preview.html" ∨ pathname == "/loader/preview")
      ∧ fs.previewOk then .loaderPreview
  else if pathname == "/api" then .api
  else if jsStartsWith pathname "/proxy/sportradar/match." then .widgetProxy
  else if pathname == "/984c87dccac74331a2261fd032f80dbf/licensing" then
    .licensing
  else if jsStartsWith pathname "/translations/" then .translations
  else if jsStartsWith pathname "/api/ws-fn/" ∨ jsStartsWith pathname "/api/lt-fn/"
    then .feedProxy
  else if jsStartsWith pathname "/proxy/sportradar/" then .sportradarAssets
  else if jsStartsWith pathname "/assets/" ∨ jsStartsWith pathname "/js/" ∨
      jsStartsWith pathname "/css/" then .directAsset
  else .notFound

/-- C9 counterexample — the branch that references the undefined
`SPORTRADAR_BASE` variable is reachable: the asset path that the `/api`
endpoint itself advertises dispatches straight into it. -/
theorem sportradar_base_branch_reachable_cex :
    dispatch ⟨true, true, true⟩ "GET"
      "/proxy/sportradar/assets/js/chunk.123.js" = Route.sportradarAssets := by
  decide

theorem ne_of_starts (pathname c pre : String)
    (hpre : jsStartsWith pathname pre = true)
    (hnot : ¬ (pre.data <+: c.data)) :
    ¬ ((pathname == c) = true) := by
  intro h
  have hp := List.isPrefixOf_iff_prefix.mp hpre
  have he : pathname = c := by simpa using h
  subst he
  exact hnot hp

theorem starts_false_of_incomp (pathname pre other : String)
    (hpre : jsStartsWith pathname pre = true)
    (h1 : ¬ (other.data <+: pre.data))
    (h2 : ¬ (pre.data <+: other.data)) :
    ¬ (jsStartsWith pathname other = true) := by
  intro h
  have ha := List.isPrefixOf_iff_prefix.mp hpre
  have hb := List.isPrefixOf_iff_prefix.mp h
  rcases List.prefix_or_prefix_of_prefix hb ha with hc | hc
  · exact h1 hc
  · exact h2 hc

/-- C9 amended — the `SPORTRADAR_BASE` branch is not unreachable: every
non-OPTIONS request whose path starts with `/proxy/sportradar/` but not
with `/proxy/sportradar/match.` dispatches to it (where evaluating the
undefined variable would throw at runtime). -/
theorem sportradar_base_branch_reachable (fs : FsState)
    (method pathname : String)
    (hm : method ≠ "OPTIONS")
    (hpre : jsStartsWith pathname "/proxy/sportradar/" = true)
    (hnm : jsStartsWith pathname "/proxy/sportradar/match." = false) :
    dispatch fs method pathname = Route.sportradarAssets := by
  unfold dispatch
  rw [if_neg (by simpa using hm),
    if_neg (ne_of_starts pathname "/health" "/proxy/sportradar/" hpre (by decide)),
    if_neg (fun hc => hc.1.elim
      (ne_of_starts pathname "/" "/proxy/sportradar/" hpre (by decide))
      (ne_of_starts pathname "/demo" "/proxy/sportradar/" hpre (by decide))),
    if_neg (fun hc => (ne_of_starts pathname "/loader/theme.css"
      "/proxy/sportradar/" hpre (by decide)) hc.1),
    if_neg (fun hc => hc.1.elim
      (ne_of_starts pathname "/loader/preview.html" "/proxy/sportradar/" hpre
        (by decide))
      (ne_of_starts pathname "/loader/preview" "/proxy/sportradar/" hpre
        (by decide))),
    if_neg (ne_of_starts pathname "/api" "/proxy/sportradar/" hpre (by decide)),
    if_neg (by simp [hnm]),
    if_neg (ne_of_starts pathname "/984c87dccac74331a2261fd032f80dbf/licensing"
      "/proxy/sportradar/" hpre (by decide)),
    if_neg (starts_false_of_incomp pathname "/proxy/sportradar/"
      "/translations/" hpre (by decide) (by decide)),
    if_neg (fun hc => hc.elim
      (starts_false_of_incomp pathname "/proxy/sportradar/" "/api/ws-fn/" hpre
        (by decide) (by decide))
      (starts_false_of_incomp pathname "/proxy/sportradar/" "/api/lt-fn/" hpre
        (by decide) (by decide))),
    if_pos hpre]

/-- Witness for the amended C9 at a second concrete in-branch path. -/
theorem sportradar_base_branch_reachable_witness :
    dispatch ⟨true, true, true⟩ "GET" "/proxy/sportradar/js/app.js" =
      Route.sportradarAssets :=
  sportradar_base_branch_reachable ⟨true, true, true⟩ "GET"
    "/proxy/sportradar/js/app.js" (by decide) (by decide) (by decide)

/-- C6 counterexample — the cache key is built with
`JSON.stringify(queryParams)`, which preserves insertion order: the same
logical query parameters presented in a different order (a permutation of
the same bindings) produce two distinct cache keys. -/
theorem cache_key_order_sensitive_cex :
    widgetCacheKey "sportradar" "match.lmtPlus" [("a", "1"), ("b", "2")] ≠
      widgetCacheKey "sportradar" "match.lmtPlus" [("b", "2"), ("a", "1")] ∧
    ([("a", "1"), ("b", "2")] : List (String × String)).Perm
      [("b", "2"), ("a", "1")] :=
  ⟨by decide, by decide⟩

theorem joinComma_cons_of_ne (x : String) (l : List String) (h : l ≠ []) :
    joinComma (x :: l) = x ++ "," ++ joinComma l := by
  cases l with
  | nil => exact absurd rfl h
  | cons y t => rfl

/-- The function `joinComma` is injective in any one list position (the surrounding
elements being equal). -/
theorem joinComma_mid_inj :
    ∀ (xs : List String) (a b : String) (r : List String),
      joinComma (xs ++ a :: r) = joinComma (xs ++ b :: r) → a = b := by
  intro xs
  induction xs with
  | nil =>
    intro a b r h
    simp only [List.nil_append] at h
    cases r with
    | nil => exact h
    | cons y t =>
      rw [joinComma_cons_of_ne a (y :: t) (by simp),
        joinComma_cons_of_ne b (y :: t) (by simp)] at h
      have hd := congrArg String.data h
      simp only [String.data_append, List.append_assoc,
        List.append_cancel_right_eq] at hd
      exact String.ext hd
  | cons x xs' ih =>
    intro a b r h
    rw [List.cons_append, List.cons_append,
      joinComma_cons_of_ne x _ (by simp), joinComma_cons_of_ne x _ (by simp)] at h
    have hd := congrArg String.data h
    simp only [String.data_append, List.append_assoc,
      List.append_cancel_left_eq] at hd
    exact ih a b r (String.ext hd)

/-- The function `quoteKV` is injective in the value (for a fixed parameter name). -/
theorem quoteKV_val_inj (k v v' : String)
    (h : quoteKV (k, v) = quoteKV (k, v')) : v = v' := by
  have hd := congrArg String.data h
  simp only [quoteKV, String.data_append, List.append_assoc,
    List.append_cancel_left_eq, List.append_cancel_right_eq] at hd
  exact String.ext hd

/-- C6 amended — the cache key is a deterministic function of (provider,
widget type, *ordered* query parameter list): equal ordered inputs give
equal keys (though reorderings of the same bindings may not, see the
counterexample), and two requests that differ only in one query parameter
value always produce distinct keys. -/
theorem cache_key_deterministic_and_discriminating :
    (∀ (p wt : String) (qp1 qp2 : List (String × String)), qp1 = qp2 →
      widgetCacheKey p wt qp1 = widgetCacheKey p wt qp2) ∧
    (∀ (p wt : String) (pre post : List (String × String)) (k v v' : String),
      v ≠ v' →
      widgetCacheKey p wt (pre ++ (k, v) :: post) ≠
        widgetCacheKey p wt (pre ++ (k, v') :: post)) := by
  constructor
  · intro p wt qp1 qp2 h
    rw [h]
  · intro p wt pre post k v v' hne heq
    apply hne
    have hd := congrArg String.data heq
    simp only [widgetCacheKey, jsonStringify, String.data_append,
      List.append_assoc, List.append_cancel_left_eq,
      List.append_cancel_right_eq, List.map_append, List.map_cons] at hd
    have hj := joinComma_mid_inj (pre.map quoteKV) (quoteKV (k, v))
      (quoteKV (k, v')) (post.map quoteKV) (String.ext hd)
    exact quoteKV_val_inj k v v' hj

/-- Witness for the amended C6: changing one query parameter value changes
the key. -/
theorem cache_key_discrimination_witness :
    widgetCacheKey "sportradar" "match.lmtPlus" [("matchId", "123")] ≠
      widgetCacheKey "sportradar" "match.lmtPlus" [("matchId", "124")] :=
  cache_key_deterministic_and_discriminating.2 "sportradar" "match.lmtPlus"
    [] [] "matchId" "123" "124" (by decide)

/-- Witness for C5 at the default configuration: requests at `t = 0 ms` and
`t = 300000 ms` (the 300 s script TTL boundary) share one fetch; a request
at `t = 300001 ms` triggers the second. -/
theorem cache_ttl_single_fetch_witness :
    (proxyWidget defaultConfig sampleFetch 0 ⟨[], 0⟩ "sportradar"
      "match.lmtPlus" [] ⟨none, none, none⟩).snd.fetchCount = 0 + 1 ∧
    (proxyWidget defaultConfig sampleFetch 300000
        (proxyWidget defaultConfig sampleFetch 0 ⟨[], 0⟩ "sportradar"
          "match.lmtPlus" [] ⟨none, none, none⟩).snd "sportradar"
        "match.lmtPlus" [] ⟨none, none, none⟩).snd =
      (proxyWidget defaultConfig sampleFetch 0 ⟨[], 0⟩ "sportradar"
        "match.lmtPlus" [] ⟨none, none, none⟩).snd ∧
    (proxyWidget defaultConfig sampleFetch 300001
        (proxyWidget defaultConfig sampleFetch 300000
          (proxyWidget defaultConfig sampleFetch 0 ⟨[], 0⟩ "sportradar"
            "match.lmtPlus" [] ⟨none, none, none⟩).snd "sportradar"
          "match.lmtPlus" [] ⟨none, none, none⟩).snd "sportradar"
        "match.lmtPlus" [] ⟨none, none, none⟩).snd.fetchCount = 0 + 2 :=
  cache_ttl_single_fetch defaultConfig sampleFetch "sportradar"
    "match.lmtPlus" [] ⟨none, none, none⟩ sportradarCfg
    ⟨"/{widgetId}/widgetloader"⟩ 0 0 300000 300001 200 "widget()" []
    rfl rfl rfl (by decide) (by decide) (by decide) (by decide)

/-- Witness for C8: a single failing fetch against the default
configuration increments the fetch counter, caches nothing, and returns the
wrapped error. -/
theorem fetch_failure_leaves_cache_unchanged_witness :
    proxyWidget defaultConfig (fun _ _ _ _ => .err "ECONNREFUSED") 0 ⟨[], 7⟩
      "sportradar" "match.lmtPlus" [] ⟨none, none, none⟩ =
      (.error ⟨"Failed to fetch widget: ECONNREFUSED", none⟩, ⟨[], 8⟩) :=
  fetch_failure_leaves_cache_unchanged.1 defaultConfig
    (fun _ _ _ _ => .err "ECONNREFUSED") 0 ⟨[], 7⟩ "sportradar"
    "match.lmtPlus" [] ⟨none, none, none⟩ _ _ "ECONNREFUSED"
    rfl rfl rfl rfl

end SrWidget
